import Mathlib

/-!
Verification of the pccontrol-python repository's session/navigation core
against its natural-language specification.

The Python source is shallowly embedded:
* the path token codec (`keyboards.encode_path`, `bot.encode_path`,
  `bot.decode_path`) is modelled over `List Char` (Python `str`) and
  `List Nat` (Python `bytes`, each element < 256), with `base64.b64encode`
  / `base64.b64decode` and the UTF-8 codec spelled out;
* the per-user session store (`bot.user_states`), the timer logic
  (`bot.start_timer`) and the cancel paths (`bot.cancel_command`,
  the `cancel_action` branch of `bot.button_handler`) are modelled as
  explicit state passing over a `BotState` record, with a Python
  exception escaping a handler represented as an explicit flag;
* the file manager (`file_manager.py`) is modelled over a finite
  filesystem: paths are component lists (`List String`), the Python
  `Path` string parsing being elided.

Fallible Python code (a `raise`) is modelled with `Option`/`Except` or an
explicit exception flag when the partial side effects matter.
-/

namespace PCControl

/-! ### Base64 (as used by `base64.b64encode` / `base64.b64decode`) -/

/-- The standard base64 alphabet used by Python's `base64.b64encode`. -/
def b64chars : List Char :=
  "ABCDEFGHIJKLMNOPQRSTUVWXYZabcdefghijklmnopqrstuvwxyz0123456789+/".toList

/-- Character for a 6-bit group. -/
def b64char (i : Nat) : Char := b64chars.getD i 'A'

/-- Index of a base64 character, `none` for a character outside the
alphabet (Python raises / ignores it depending on mode). -/
def b64index (c : Char) : Option Nat :=
  if c ∈ b64chars then some (b64chars.indexOf c) else none

/-- Model of `base64.b64encode` on a byte list (each byte < 256),
producing the padded base64 character string. -/
def b64encodeBytes : List Nat → List Char
  | [] => []
  | [a] => [b64char (a / 4), b64char (a % 4 * 16), '=', '=']
  | [a, b] => [b64char (a / 4), b64char (a % 4 * 16 + b / 16), b64char (b % 16 * 4), '=']
  | a :: b :: c :: rest =>
      b64char (a / 4) :: b64char (a % 4 * 16 + b / 16) ::
      b64char (b % 16 * 4 + c / 64) :: b64char (c % 64) :: b64encodeBytes rest

/-- Model of `base64.b64decode` on well-formed padded base64 input.
Returns `none` where Python raises `binascii.Error` (wrong length,
a padding character where a data character is required).  Python's
non-strict discarding of characters outside the alphabet is not
modelled; no theorem below feeds such input. -/
def b64decodeChars : List Char → Option (List Nat)
  | [] => some []
  | c1 :: c2 :: c3 :: c4 :: rest =>
      if rest = [] ∧ c3 = '=' ∧ c4 = '=' then
        match b64index c1, b64index c2 with
        | some i1, some i2 => some [i1 * 4 + i2 / 16]
        | _, _ => none
      else if rest = [] ∧ c4 = '=' then
        match b64index c1, b64index c2, b64index c3 with
        | some i1, some i2, some i3 => some [i1 * 4 + i2 / 16, i2 % 16 * 16 + i3 / 4]
        | _, _, _ => none
      else
        match b64index c1, b64index c2, b64index c3, b64index c4, b64decodeChars rest with
        | some i1, some i2, some i3, some i4, some bs =>
            some ((i1 * 4 + i2 / 16) :: (i2 % 16 * 16 + i3 / 4) :: (i3 % 4 * 64 + i4) :: bs)
        | _, _, _, _, _ => none
  | _ => none

/-! ### UTF-8 (as used by `str.encode('utf-8')` / `bytes.decode('utf-8')`) -/

/-- UTF-8 encoding of one Unicode scalar value (`str.encode('utf-8')`,
per character). -/
def utf8EncodeChar (c : Char) : List Nat :=
  if c.toNat < 0x80 then [c.toNat]
  else if c.toNat < 0x800 then [0xC0 + c.toNat / 0x40, 0x80 + c.toNat % 0x40]
  else if c.toNat < 0x10000 then
    [0xE0 + c.toNat / 0x1000, 0x80 + c.toNat / 0x40 % 0x40, 0x80 + c.toNat % 0x40]
  else
    [0xF0 + c.toNat / 0x40000, 0x80 + c.toNat / 0x1000 % 0x40,
     0x80 + c.toNat / 0x40 % 0x40, 0x80 + c.toNat % 0x40]

/-- UTF-8 encoding of a string (`str.encode('utf-8')`). -/
def utf8Encode (s : List Char) : List Nat := (s.map utf8EncodeChar).flatten

/-- Continuation byte test: `0x80 ≤ b < 0xC0`. -/
def contByte (b : Nat) : Prop := 0x80 ≤ b ∧ b < 0xC0

instance (b : Nat) : Decidable (contByte b) := by unfold contByte; infer_instance

/-- Lead byte of a two-byte sequence (`0xC0`/`0xC1` excluded: overlong). -/
def lead2 (b : Nat) : Prop := 0xC2 ≤ b ∧ b < 0xE0

instance (b : Nat) : Decidable (lead2 b) := by unfold lead2; infer_instance

/-- Lead byte of a three-byte sequence. -/
def lead3 (b : Nat) : Prop := 0xE0 ≤ b ∧ b < 0xF0

instance (b : Nat) : Decidable (lead3 b) := by unfold lead3; infer_instance

/-- Lead byte of a four-byte sequence (`0xF5`.. excluded: above `0x10FFFF`). -/
def lead4 (b : Nat) : Prop := 0xF0 ≤ b ∧ b < 0xF5

instance (b : Nat) : Decidable (lead4 b) := by unfold lead4; infer_instance

/-- Constraint on the second byte of a three-byte sequence: rejects
overlong forms (`0xE0` lead) and surrogates (`0xED` lead). -/
def snd3ok (b1 b2 : Nat) : Prop :=
  if b1 = 0xE0 then 0xA0 ≤ b2 ∧ b2 < 0xC0
  else if b1 = 0xED then 0x80 ≤ b2 ∧ b2 < 0xA0
  else contByte b2

instance (b1 b2 : Nat) : Decidable (snd3ok b1 b2) :=
  if h : b1 = 0xE0 then
    decidable_of_iff (0xA0 ≤ b2 ∧ b2 < 0xC0) (by unfold snd3ok; rw [if_pos h])
  else if h2 : b1 = 0xED then
    decidable_of_iff (0x80 ≤ b2 ∧ b2 < 0xA0) (by unfold snd3ok; rw [if_neg h, if_pos h2])
  else
    decidable_of_iff (contByte b2) (by unfold snd3ok; rw [if_neg h, if_neg h2])

/-- Constraint on the second byte of a four-byte sequence: rejects
overlong forms (`0xF0` lead) and values above `0x10FFFF` (`0xF4` lead). -/
def snd4ok (b1 b2 : Nat) : Prop :=
  if b1 = 0xF0 then 0x90 ≤ b2 ∧ b2 < 0xC0
  else if b1 = 0xF4 then 0x80 ≤ b2 ∧ b2 < 0x90
  else contByte b2

instance (b1 b2 : Nat) : Decidable (snd4ok b1 b2) :=
  if h : b1 = 0xF0 then
    decidable_of_iff (0x90 ≤ b2 ∧ b2 < 0xC0) (by unfold snd4ok; rw [if_pos h])
  else if h2 : b1 = 0xF4 then
    decidable_of_iff (0x80 ≤ b2 ∧ b2 < 0x90) (by unfold snd4ok; rw [if_neg h, if_pos h2])
  else
    decidable_of_iff (contByte b2) (by unfold snd4ok; rw [if_neg h, if_neg h2])

/-- Scalar value of a two-byte sequence. -/
def val2 (b1 b2 : Nat) : Nat := (b1 - 0xC0) * 0x40 + (b2 - 0x80)

/-- Scalar value of a three-byte sequence. -/
def val3 (b1 b2 b3 : Nat) : Nat :=
  (b1 - 0xE0) * 0x1000 + (b2 - 0x80) * 0x40 + (b3 - 0x80)

/-- Scalar value of a four-byte sequence. -/
def val4 (b1 b2 b3 b4 : Nat) : Nat :=
  (b1 - 0xF0) * 0x40000 + (b2 - 0x80) * 0x1000 + (b3 - 0x80) * 0x40 + (b4 - 0x80)

/-- One step of strict UTF-8 decoding (`bytes.decode('utf-8')`): parse
the first scalar value off the byte list, rejecting overlong forms,
surrogates and scalar values above `0x10FFFF`.  `none` where Python
raises `UnicodeDecodeError`. -/
def utf8Step : List Nat → Option (Char × List Nat) := fun bs =>
  match bs with
  | [] => none
  | b1 :: rest =>
    if b1 < 0x80 then some (Char.ofNat b1, rest)
    else if lead2 b1 then
      match rest with
      | [] => none
      | b2 :: rest2 =>
          if contByte b2 then some (Char.ofNat (val2 b1 b2), rest2) else none
    else if lead3 b1 then
      match rest with
      | b2 :: b3 :: rest3 =>
          if snd3ok b1 b2 ∧ contByte b3 then some (Char.ofNat (val3 b1 b2 b3), rest3)
          else none
      | _ => none
    else if lead4 b1 then
      match rest with
      | b2 :: b3 :: b4 :: rest4 =>
          if snd4ok b1 b2 ∧ contByte b3 ∧ contByte b4 then
            some (Char.ofNat (val4 b1 b2 b3 b4), rest4)
          else none
      | _ => none
    else none

/-- Fuel-indexed decoding loop; the fuel only serves structural
termination and is irrelevant as long as it dominates the list length. -/
def utf8DecodeGo : Nat → List Nat → Option (List Char)
  | _, [] => some []
  | 0, _ :: _ => none
  | fuel + 1, b1 :: rest =>
    match utf8Step (b1 :: rest) with
    | some (c, rest2) => (utf8DecodeGo fuel rest2).map (c :: ·)
    | none => none

/-- Strict UTF-8 decoding of a whole byte list (`bytes.decode('utf-8')`). -/
def utf8Decode (bs : List Nat) : Option (List Char) := utf8DecodeGo bs.length bs

/-! ### The path token codec (`bot.encode_path`, `bot.decode_path`;
`keyboards.encode_path` is the identical duplicate) -/

/-- Model of `encode_path` (bot.py lines 38-41, keyboards.py lines 10-13):
base64 of the UTF-8 bytes, truncated to the first 60 characters. -/
def encode_path (path : List Char) : List Char :=
  (b64encodeBytes (utf8Encode path)).take 60

/-- Model of the padding repair inside `decode_path` (bot.py lines 46-48):
`padding = 4 - len(encoded) % 4; if padding != 4: encoded += '=' * padding`. -/
def fixPadding (encoded : List Char) : List Char :=
  let padding := 4 - encoded.length % 4
  if padding ≠ 4 then encoded ++ List.replicate padding '=' else encoded

/-- Model of `decode_path` (bot.py lines 44-49): repair padding, base64
decode, then UTF-8 decode; `none` models a raised exception
(`binascii.Error` or `UnicodeDecodeError`). -/
def decode_path (encoded : List Char) : Option (List Char) :=
  match b64decodeChars (fixPadding encoded) with
  | some bytes => utf8Decode bytes
  | none => none

/-! ### Session store and message dispatcher (bot.py) -/

/-- The pending actions stored in `user_states[uid]['action']`. -/
inductive PendingAction
  | auth_password
  | run_process
  | kill_process
  | restart_process
  | change_priority
  | watch_process
  | ping_host
  | dns_lookup
  | execute_cmd
  | set_clipboard
  | open_url
  | change_password
  | rename_file
  | move_file
  | copy_file
  | watch_directory
  | confirm_shutdown
  | confirm_restart
  deriving DecidableEq, Repr

/-- Accumulating whitespace splitter over the character list. -/
def splitWsAux : List Char → List Char → List (List Char)
  | [], acc => if acc = [] then [] else [acc.reverse]
  | c :: cs, acc =>
    if c.isWhitespace then
      if acc = [] then splitWsAux cs [] else acc.reverse :: splitWsAux cs []
    else splitWsAux cs (c :: acc)

/-- Python's `str.split()` with no argument: split on whitespace runs,
discarding empty pieces. -/
def pySplit (text : String) : List String :=
  (splitWsAux text.toList []).map List.asString

/-- One entry of `user_states` (a Python dict with keys `action` and
optionally `file_path` and `timer_task`; absent keys are `none`).
`timer_task` holds the index of an `asyncio` task. -/
structure Session where
  action : Option PendingAction := none
  file_path : Option String := none
  timer_task : Option Nat := none
  deriving DecidableEq, Repr

/-- Outcome of one `handle_message` dispatch: the user's resulting
`user_states` entry and, when a Python exception escaped the handler,
its name. -/
structure MsgResult where
  session : Option Session
  exn : Option String
  deriving DecidableEq, Repr

/-- Model of the session-state effect of `handle_message` (bot.py lines
715-903) for an authorized user: given the user's `user_states` entry (or
`none`) and the message text, the resulting entry and any escaping
exception.  Collaborator calls (process manager, file manager, ...) and
replies are elided: every dispatch branch runs
`del user_states[user_id]` whatever the collaborator returned, except

* `change_priority`, whose malformed-format branch returns early
  (lines 776-780) without the `del`, and
* `watch_directory`, whose line 880 calls the bare name
  `start_directory_watch` — bot.py only does `import monitor` and never
  imports or defines that name, so evaluating it raises `NameError`
  before the `del` at line 884 and the exception escapes with the
  pending state retained,

and the final `else`, which only replies.  The `auth_password` branch
(lines 724-735) deletes the entry in both password outcomes. -/
def handle_message_state : Option Session → String → MsgResult
  | none, _ => { session := none, exn := none }
  | some s, text =>
    match s.action with
    | some .auth_password => { session := none, exn := none }
    | none => { session := some s, exn := none }
    | some .run_process => { session := none, exn := none }
    | some .kill_process => { session := none, exn := none }
    | some .restart_process => { session := none, exn := none }
    | some .change_priority =>
      if (pySplit text).length ≠ 2 then { session := some s, exn := none }
      else { session := none, exn := none }
    | some .watch_process => { session := none, exn := none }
    | some .ping_host => { session := none, exn := none }
    | some .dns_lookup => { session := none, exn := none }
    | some .execute_cmd => { session := none, exn := none }
    | some .set_clipboard => { session := none, exn := none }
    | some .open_url => { session := none, exn := none }
    | some .change_password => { session := none, exn := none }
    | some .rename_file => { session := none, exn := none }
    | some .move_file => { session := none, exn := none }
    | some .copy_file => { session := none, exn := none }
    | some .watch_directory => { session := some s, exn := some "NameError" }
    | some .confirm_shutdown => { session := none, exn := none }
    | some .confirm_restart => { session := none, exn := none }

/-! ### Timers and cancellation (bot.py `start_timer`, `cancel_command`,
the `cancel_action` branch of `button_handler`) -/

/-- One `asyncio` task created by `start_timer`; `cancelled` records a
`.cancel()` call, which stops the pending sleep from completing. -/
structure TimerTask where
  userId : Nat
  timerAction : String
  cancelled : Bool
  deriving DecidableEq, Repr

/-- Interpreter state relevant to the timer claims: the `user_states`
dict (association list) and every task created so far (a task's id is
its index; `asyncio` keeps created tasks alive independently of
`user_states`). -/
structure BotState where
  user_states : List (Nat × Session)
  tasks : List TimerTask
  deriving Repr

/-- Python dict read `d.get(k)`, dicts modelled as association lists. -/
def assocGet {α : Type} (l : List (Nat × α)) (uid : Nat) : Option α :=
  (l.find? (fun p => p.1 == uid)).map (·.2)

/-- Python dict write `d[k] = v` (replace or insert). -/
def assocSet {α : Type} (l : List (Nat × α)) (uid : Nat) (v : α) : List (Nat × α) :=
  if (l.find? (fun p => p.1 == uid)).isSome then
    l.map (fun p => if p.1 == uid then (uid, v) else p)
  else
    l ++ [(uid, v)]

/-- Python dict deletion `del d[k]` (no-op when absent, matching the
guarded deletes in the cancel handlers). -/
def assocRemove {α : Type} (l : List (Nat × α)) (uid : Nat) : List (Nat × α) :=
  l.filter (fun p => !(p.1 == uid))

/-- Dict lookup `user_states.get(uid)`. -/
def lookupState (w : BotState) (uid : Nat) : Option Session :=
  assocGet w.user_states uid

/-- Dict update `user_states[uid] = s`. -/
def setState (w : BotState) (uid : Nat) (s : Session) : BotState :=
  { w with user_states := assocSet w.user_states uid s }

/-- Dict deletion `del user_states[uid]`. -/
def removeState (w : BotState) (uid : Nat) : BotState :=
  { w with user_states := assocRemove w.user_states uid }

/-- Mark task `i` cancelled (`task.cancel()`). -/
def cancelTask : List TimerTask → Nat → List TimerTask
  | [], _ => []
  | t :: ts, 0 => { t with cancelled := true } :: ts
  | t :: ts, n + 1 => t :: cancelTask ts n

/-- Result of one handler invocation that may let a Python exception
escape (`exn` names it) while keeping the side effects that already
happened. -/
structure StepResult where
  state : BotState
  exn : Option String
  deriving Repr

/-- Model of `start_timer` (bot.py lines 686-712): if the session dict
holds a `timer_task`, cancel it; create the new `asyncio` task; then
register it with `user_states[user_id]['timer_task'] = timer_task`,
which raises `KeyError` when the user has no `user_states` entry —
after the task was already created. -/
def start_timer (w : BotState) (uid : Nat) (action : String) : StepResult :=
  let w1 :=
    match lookupState w uid with
    | some s =>
      match s.timer_task with
      | some tid => { w with tasks := cancelTask w.tasks tid }
      | none => w
    | none => w
  let tid := w1.tasks.length
  let w2 : BotState := { w1 with tasks := w1.tasks ++ [⟨uid, action, false⟩] }
  match lookupState w2 uid with
  | some s => { state := setState w2 uid { s with timer_task := some tid }, exn := none }
  | none => { state := w2, exn := some "KeyError" }

/-- Model of the `cancel_action` / `cancel_input` branches of
`button_handler` (bot.py lines 501-515): delete the session entry if
present and reply; no task is cancelled. -/
def cancel_action (w : BotState) (uid : Nat) : BotState := removeState w uid

/-- Model of `cancel_command` (bot.py lines 111-121): delete the session
entry if present and reply; the trailing `return ConversationHandler.END`
then raises `NameError` (`ConversationHandler` is never imported), after
the deletion and the reply already happened.  No task is cancelled. -/
def cancel_command (w : BotState) (uid : Nat) : StepResult :=
  { state := removeState w uid, exn := some "NameError" }

/-- An `asyncio` timer task fires (its sleep completes and the shutdown
or sleep action runs) exactly when it was never cancelled. -/
def timer_fires (w : BotState) (tid : Nat) : Bool :=
  match w.tasks.get? tid with
  | some t => !t.cancelled
  | none => false

/-- Number of live (created, not cancelled) timer tasks of one user. -/
def liveTimerCount (w : BotState) (uid : Nat) : Nat :=
  (w.tasks.filter (fun t => t.userId == uid && !t.cancelled)).length

/-! ### File manager model (file_manager.py) -/

/-- One filesystem node.  `path` is the absolute path as a component
list (Python `Path` string parsing is elided; a rename target or
destination is likewise a component / component list).
`accessible = false` makes `stat()` raise `PermissionError`. -/
structure FSEntry where
  path : List String
  isDir : Bool
  size : Nat
  mtime : Nat
  accessible : Bool
  deriving DecidableEq, Repr

/-- A finite filesystem; the order of `entries` is the enumeration
order the OS would return from `iterdir()`. -/
structure FileSystem where
  entries : List FSEntry
  deriving Repr

/-- Lookup of a path (`Path.exists` / `stat`). -/
def findEntry (fs : FileSystem) (p : List String) : Option FSEntry :=
  fs.entries.find? (fun e => e.path == p)

/-- Rendering of a component path inside messages (separator choice is
immaterial to every property proved here). -/
def pathStr (p : List String) : String := String.intercalate "/" p

/-- `Path.name`. -/
def entryName (e : FSEntry) : String := e.path.getLast?.getD ""

/-- Direct children of a directory, in enumeration order (`iterdir`). -/
def childrenOf (fs : FileSystem) (p : List String) : List FSEntry :=
  fs.entries.filter (fun e => e.path.length == p.length + 1 && e.path.take p.length == p)

/-- Python `str.lower()` of a name, as its character list (ASCII case
folding, which covers the names compared here). -/
def lowerName (s : String) : List Char := s.toList.map Char.toLower

/-- Lexicographic `≤` on character lists — Python string comparison by
code points. -/
def cmpLowerLE : List Char → List Char → Bool
  | [], _ => true
  | _ :: _, [] => false
  | c :: cs, d :: ds => if c = d then cmpLowerLE cs ds else decide (c < d)

/-- Sort key of `get_directory_contents`:
`(not x.is_dir(), x.name.lower())`. -/
def sortKey (e : FSEntry) : Bool × List Char := (!e.isDir, lowerName (entryName e))

/-- Lexicographic order on sort keys (`False < True`, then string
order), as Python tuple comparison produces for `sorted`. -/
def keyLE (k1 k2 : Bool × List Char) : Bool :=
  (!k1.1 && k2.1) || (k1.1 == k2.1 && cmpLowerLE k1.2 k2.2)

/-- Entry comparison used by the listing sort. -/
def entryLE (a b : FSEntry) : Bool := keyLE (sortKey a) (sortKey b)

/-- Stable insertion: `x` is placed after every element in or before
its equivalence class. -/
def insertLE {α : Type} (le : α → α → Bool) (x : α) : List α → List α
  | [] => [x]
  | y :: ys => if le y x then y :: insertLE le x ys else x :: y :: ys

/-- Python's `sorted` with a key: the stable sort for the (total,
transitive) comparison — and for a total preorder all stable sorts
agree, so left-to-right stable insertion reproduces it exactly. -/
def stableSort {α : Type} (le : α → α → Bool) (l : List α) : List α :=
  l.foldl (fun acc x => insertLE le x acc) []

/-- One returned listing item (the dict built in
`get_directory_contents`). -/
structure DirItem where
  name : String
  path : List String
  is_dir : Bool
  size : Nat
  modified : Nat
  deriving DecidableEq, Repr

/-- Model of `get_directory_contents` (file_manager.py lines 31-72):
missing path and non-directory return an empty listing with an error
text; otherwise children are sorted with key
`(not is_dir, name.lower())` and entries whose `stat` raises
`PermissionError` are skipped. -/
def get_directory_contents (fs : FileSystem) (path : List String) :
    List DirItem × String :=
  match findEntry fs path with
  | none => ([], "Directory does not exist: " ++ pathStr path)
  | some e =>
    if !e.isDir then ([], "Not a directory: " ++ pathStr path)
    else if !e.accessible then ([], "Access denied to: " ++ pathStr path)
    else
      let sorted := stableSort entryLE (childrenOf fs path)
      let items := (sorted.filter (·.accessible)).map (fun c =>
        { name := entryName c
          path := c.path
          is_dir := c.isDir
          size := if !c.isDir then c.size else 0
          modified := c.mtime })
      (items, "")

/-- Model of `get_drives` (file_manager.py lines 15-28): the existing
storage roots, modelled as the top-level directories of the filesystem. -/
def get_drives (fs : FileSystem) : List (List String) :=
  (fs.entries.filter (fun e => e.path.length == 1 && e.isDir)).map (·.path)

/-- Model of `navigate_to_path` (file_manager.py lines 94-109): the
empty path lists the drives, otherwise the directory contents. -/
def navigate_to_path (fs : FileSystem) (path : List String) :
    List DirItem × String :=
  if path = [] then
    ((get_drives fs).map (fun d =>
      { name := pathStr d, path := d, is_dir := true, size := 0, modified := 0 }), "")
  else get_directory_contents fs path

/-- Subtree removal (`unlink` / `shutil.rmtree`). -/
def removeTree (fs : FileSystem) (p : List String) : FileSystem :=
  { entries := fs.entries.filter (fun e => !(e.path.take p.length == p)) }

/-- Re-root a path from `src` to `dst`. -/
def retargetPath (src dst q : List String) : List String :=
  dst ++ q.drop src.length

/-- Subtree move (`Path.rename` / `os.rename`). -/
def moveTree (fs : FileSystem) (src dst : List String) : FileSystem :=
  { entries := fs.entries.map (fun e =>
      if e.path.take src.length == src then { e with path := retargetPath src dst e.path }
      else e) }

/-- Append one entry. -/
def addEntry (fs : FileSystem) (e : FSEntry) : FileSystem :=
  { entries := fs.entries ++ [e] }

/-- Subtree copy (`shutil.copytree`). -/
def copyTreeTo (fs : FileSystem) (src dst : List String) : FileSystem :=
  { entries := fs.entries ++
      (fs.entries.filter (fun e => e.path.take src.length == src)).map
        (fun e => { e with path := retargetPath src dst e.path }) }

/-- Model of `delete_file` (file_manager.py lines 112-143). -/
def delete_file (fs : FileSystem) (file_path : List String) :
    FileSystem × Bool × String :=
  match findEntry fs file_path with
  | none => (fs, false, "Path does not exist: " ++ pathStr file_path)
  | some e =>
    if !e.isDir then
      (removeTree fs file_path, true, "✅ File deleted: " ++ pathStr file_path)
    else
      (removeTree fs file_path, true, "✅ Directory deleted: " ++ pathStr file_path)

/-- Model of `rename_file` (file_manager.py lines 146-177): source must
exist, the sibling target must not; only then is the subtree renamed. -/
def rename_file (fs : FileSystem) (file_path : List String) (new_name : String) :
    FileSystem × Bool × String :=
  match findEntry fs file_path with
  | none => (fs, false, "Path does not exist: " ++ pathStr file_path)
  | some _ =>
    let new_path := file_path.dropLast ++ [new_name]
    match findEntry fs new_path with
    | some _ => (fs, false, "Destination already exists: " ++ pathStr new_path)
    | none => (moveTree fs file_path new_path, true, "✅ Renamed to: " ++ new_name)

/-- Model of `move_file` (file_manager.py lines 180-212): source and the
destination's parent are checked, then `shutil.move` runs.  `shutil.move`
into an existing directory targets `destination/<source name>` and
refuses an existing real target; an existing plain-file destination is
replaced (`os.rename`, POSIX semantics — on Windows this raises instead;
no theorem below relies on the plain-file-destination overwrite). -/
def move_file (fs : FileSystem) (file_path destination : List String) :
    FileSystem × Bool × String :=
  match findEntry fs file_path with
  | none => (fs, false, "Source does not exist: " ++ pathStr file_path)
  | some _ =>
    match findEntry fs destination.dropLast with
    | none =>
      (fs, false, "Destination directory does not exist: " ++ pathStr destination.dropLast)
    | some _ =>
      match findEntry fs destination with
      | some d =>
        if d.isDir then
          let real := destination ++ [file_path.getLast?.getD ""]
          match findEntry fs real with
          | some _ =>
            (fs, false, "❌ Error moving " ++ pathStr file_path ++
              ": Destination path already exists")
          | none => (moveTree fs file_path real, true, "✅ Moved to: " ++ pathStr destination)
        else
          (moveTree (removeTree fs destination) file_path destination, true,
            "✅ Moved to: " ++ pathStr destination)
      | none => (moveTree fs file_path destination, true, "✅ Moved to: " ++ pathStr destination)

/-- Model of `copy_file` (file_manager.py lines 215-251): source and the
destination's parent are checked, then `shutil.copy2` (file source:
copying into an existing directory targets `destination/<source name>`,
an existing file destination is silently overwritten, an existing
directory real target raises) or `shutil.copytree` (directory source:
an existing destination raises `FileExistsError`). -/
def copy_file (fs : FileSystem) (file_path destination : List String) :
    FileSystem × Bool × String :=
  match findEntry fs file_path with
  | none => (fs, false, "Source does not exist: " ++ pathStr file_path)
  | some e_src =>
    match findEntry fs destination.dropLast with
    | none =>
      (fs, false, "Destination directory does not exist: " ++ pathStr destination.dropLast)
    | some _ =>
      if !e_src.isDir then
        let real :=
          match findEntry fs destination with
          | some d => if d.isDir then destination ++ [file_path.getLast?.getD ""] else destination
          | none => destination
        match findEntry fs real with
        | some r =>
          if r.isDir then
            (fs, false, "❌ Error copying " ++ pathStr file_path ++ ": IsADirectoryError")
          else
            (addEntry (removeTree fs real) { e_src with path := real }, true,
              "✅ Copied to: " ++ pathStr destination)
        | none =>
          (addEntry fs { e_src with path := real }, true,
            "✅ Copied to: " ++ pathStr destination)
      else
        match findEntry fs destination with
        | some _ =>
          (fs, false, "❌ Error copying " ++ pathStr file_path ++ ": FileExistsError")
        | none =>
          (copyTreeTo fs file_path destination, true, "✅ Copied to: " ++ pathStr destination)

/-- Proper ancestors of a component path (never the empty path). -/
def ancestors (p : List String) : List (List String) :=
  ((List.range p.length).map (p.take ·)).filter (· ≠ [])

/-- Every existing ancestor is a directory (`mkdir(parents=True)`
raises when an ancestor exists as a file). -/
def ancestorsOk (fs : FileSystem) (p : List String) : Bool :=
  (ancestors p).all (fun q =>
    match findEntry fs q with
    | some e => e.isDir
    | none => true)

/-- Create the missing ancestors and the directory itself. -/
def addDirs (fs : FileSystem) (p : List String) : FileSystem :=
  { entries := fs.entries ++
      ((ancestors p ++ [p]).filter (fun q => (findEntry fs q).isNone)).map
        (fun q => { path := q, isDir := true, size := 0, mtime := 0, accessible := true }) }

/-- Model of `create_directory` (file_manager.py lines 333-356):
`mkdir(parents=True, exist_ok=True)` — an existing directory is
accepted silently, an existing file raises `FileExistsError`, missing
parents are created. -/
def create_directory (fs : FileSystem) (dir_path : List String) :
    FileSystem × Bool × String :=
  match findEntry fs dir_path with
  | some e =>
    if e.isDir then (fs, true, "✅ Directory created: " ++ pathStr dir_path)
    else (fs, false, "❌ Error creating directory " ++ pathStr dir_path ++ ": FileExistsError")
  | none =>
    if ancestorsOk fs dir_path then
      (addDirs fs dir_path, true, "✅ Directory created: " ++ pathStr dir_path)
    else
      (fs, false, "❌ Error creating directory " ++ pathStr dir_path ++ ": FileExistsError")

/-! ### Per-user working directory and `browse_directory` (security.py,
bot.py) -/

/-- The `current_directories` map of `config.json` (security.py);
`load_config`/`save_config` round through the file, modelled as direct
state. -/
structure ConfigStore where
  current_directories : List (Nat × List String)
  deriving Repr

/-- Model of `get_user_directory` (security.py lines 136-148): the
stored path, or the empty path when absent (Python returns `""`). -/
def get_user_directory (c : ConfigStore) (uid : Nat) : List String :=
  (assocGet c.current_directories uid).getD []

/-- Model of `set_user_directory` (security.py lines 151-166): store
`path` for the user unconditionally. -/
def set_user_directory (c : ConfigStore) (uid : Nat) (path : List String) : ConfigStore :=
  { current_directories := assocSet c.current_directories uid path }

/-- The response branch taken by `browse_directory` (text rendering and
keyboard construction elided; each constructor is one of its
`edit_message_text` exits). -/
inductive BrowseResponse
  | errorMsg (msg : String)
  | noDrives
  | emptyDir
  | listing (items : List DirItem)
  deriving DecidableEq, Repr

/-- Result of `browse_directory`: the updated per-user directory store
and the response branch. -/
structure BrowseResult where
  config : ConfigStore
  response : BrowseResponse
  deriving Repr

/-- Model of `browse_directory` (bot.py lines 561-631): the requested
path is stored as the user's current directory FIRST
(`security.set_user_directory`), then `navigate_to_path` runs and the
response is chosen; `path_cache` bookkeeping and rendering are elided
(they affect neither the stored directory nor the branch taken). -/
def browse_directory (fs : FileSystem) (c : ConfigStore) (uid : Nat)
    (path : List String) : BrowseResult :=
  let c1 := set_user_directory c uid path
  let res := navigate_to_path fs path
  if res.2 ≠ "" then { config := c1, response := .errorMsg ("❌ " ++ res.2) }
  else if res.1.isEmpty then
    if path = [] then { config := c1, response := .noDrives }
    else { config := c1, response := .emptyDir }
  else { config := c1, response := .listing res.1 }

/-- Model of the `dirb_` branch of `button_handler` (bot.py lines
191-194): the callback data after the `dirb_` prefix is decoded with
`decode_path` and the result handed to `browse_directory`.  There is no
`try`/`except` around the decode: a decode failure is a raised
exception escaping the handler, modelled as `Except.error`;
`Except.ok` carries the decoded path string handed on. -/
def button_handler_dirb (data : List Char) : Except String (List Char) :=
  match decode_path (data.drop 5) with
  | some dirPath => Except.ok dirPath
  | none => Except.error "decode_path raised: binascii.Error or UnicodeDecodeError"

/-! ### Concrete instances used by witnesses and counterexamples -/

/-- Sample filesystem: `/tmp` with two files and two directories whose
case-insensitive name order differs from the enumeration order. -/
def fsDemo : FileSystem :=
  { entries :=
      [ { path := ["tmp"], isDir := true, size := 0, mtime := 0, accessible := true },
        { path := ["tmp", "b.txt"], isDir := false, size := 7, mtime := 2, accessible := true },
        { path := ["tmp", "Zdir"], isDir := true, size := 0, mtime := 3, accessible := true },
        { path := ["tmp", "a.txt"], isDir := false, size := 5, mtime := 1, accessible := true },
        { path := ["tmp", "adir"], isDir := true, size := 0, mtime := 4, accessible := true } ] }

/-- Sample filesystem for copy/rename scenarios: `/tmp/a.txt` (5 bytes)
and a pre-existing `/tmp/b.txt` (7 bytes). -/
def fsAB : FileSystem :=
  { entries :=
      [ { path := ["tmp"], isDir := true, size := 0, mtime := 0, accessible := true },
        { path := ["tmp", "a.txt"], isDir := false, size := 5, mtime := 1, accessible := true },
        { path := ["tmp", "b.txt"], isDir := false, size := 7, mtime := 2, accessible := true } ] }

/-- A user (id 1) with a pending action and no timer tasks. -/
def wSession : BotState :=
  { user_states := [(1, { action := some .run_process })], tasks := [] }

/-- A fresh interpreter state: no sessions, no tasks. -/
def wEmpty : BotState := { user_states := [], tasks := [] }

/-! ### Correctness of the base64 layer -/

theorem b64char_mem (i : Nat) : b64char i ∈ b64chars := by
  unfold b64char List.getD
  cases h : b64chars.get? i with
  | some c => simp only [Option.getD_some]; exact List.get?_mem h
  | none => simp only [Option.getD_none]; decide

theorem b64char_ne_pad (i : Nat) : b64char i ≠ '=' := by
  intro h
  have hm := b64char_mem i
  rw [h] at hm
  revert hm
  decide

theorem b64index_b64char : ∀ i < 64, b64index (b64char i) = some i := by decide

theorem b64decode_b64encode :
    ∀ bs : List Nat, (∀ b ∈ bs, b < 256) → b64decodeChars (b64encodeBytes bs) = some bs
  | [], _ => by simp [b64encodeBytes, b64decodeChars]
  | [a], h => by
    have ha : a < 256 := h a (by simp)
    show b64decodeChars [b64char (a / 4), b64char (a % 4 * 16), '=', '='] = some [a]
    rw [b64decodeChars, if_pos ⟨rfl, rfl, rfl⟩,
      b64index_b64char (a / 4) (by omega), b64index_b64char (a % 4 * 16) (by omega)]
    show some [a / 4 * 4 + a % 4 * 16 / 16] = some [a]
    have : a / 4 * 4 + a % 4 * 16 / 16 = a := by omega
    rw [this]
  | [a, b], h => by
    have ha : a < 256 := h a (by simp)
    have hb : b < 256 := h b (by simp)
    show b64decodeChars
      [b64char (a / 4), b64char (a % 4 * 16 + b / 16), b64char (b % 16 * 4), '='] = some [a, b]
    rw [b64decodeChars, if_neg (fun hcontra => b64char_ne_pad _ hcontra.2.1),
      if_pos ⟨rfl, rfl⟩, b64index_b64char (a / 4) (by omega),
      b64index_b64char (a % 4 * 16 + b / 16) (by omega),
      b64index_b64char (b % 16 * 4) (by omega)]
    show some [a / 4 * 4 + (a % 4 * 16 + b / 16) / 16,
      (a % 4 * 16 + b / 16) % 16 * 16 + b % 16 * 4 / 4] = some [a, b]
    have h1 : a / 4 * 4 + (a % 4 * 16 + b / 16) / 16 = a := by omega
    have h2 : (a % 4 * 16 + b / 16) % 16 * 16 + b % 16 * 4 / 4 = b := by omega
    rw [h1, h2]
  | a :: b :: c :: rest, h => by
    have ha : a < 256 := h a (by simp)
    have hb : b < 256 := h b (by simp)
    have hc : c < 256 := h c (by simp)
    have ih := b64decode_b64encode rest (fun x hx => h x (by simp [hx]))
    show b64decodeChars
      (b64char (a / 4) :: b64char (a % 4 * 16 + b / 16) ::
        b64char (b % 16 * 4 + c / 64) :: b64char (c % 64) :: b64encodeBytes rest)
      = some (a :: b :: c :: rest)
    rw [b64decodeChars, if_neg (fun hcontra => b64char_ne_pad _ hcontra.2.1),
      if_neg (fun hcontra => b64char_ne_pad _ hcontra.2),
      b64index_b64char (a / 4) (by omega),
      b64index_b64char (a % 4 * 16 + b / 16) (by omega),
      b64index_b64char (b % 16 * 4 + c / 64) (by omega),
      b64index_b64char (c % 64) (by omega), ih]
    show some ((a / 4 * 4 + (a % 4 * 16 + b / 16) / 16) ::
      ((a % 4 * 16 + b / 16) % 16 * 16 + (b % 16 * 4 + c / 64) / 4) ::
      ((b % 16 * 4 + c / 64) % 4 * 64 + c % 64) :: rest) = some (a :: b :: c :: rest)
    have h1 : a / 4 * 4 + (a % 4 * 16 + b / 16) / 16 = a := by omega
    have h2 : (a % 4 * 16 + b / 16) % 16 * 16 + (b % 16 * 4 + c / 64) / 4 = b := by omega
    have h3 : (b % 16 * 4 + c / 64) % 4 * 64 + c % 64 = c := by omega
    rw [h1, h2, h3]

theorem b64encodeBytes_length_mod4 : ∀ bs : List Nat, (b64encodeBytes bs).length % 4 = 0
  | [] => by simp [b64encodeBytes]
  | [_] => by simp [b64encodeBytes]
  | [_, _] => by simp [b64encodeBytes]
  | _ :: _ :: _ :: rest => by
    have ih := b64encodeBytes_length_mod4 rest
    simp only [b64encodeBytes, List.length_cons]
    omega

/-! ### Correctness of the UTF-8 layer -/

theorem char_toNat_valid (c : Char) :
    c.toNat < 0xD800 ∨ (0xDFFF < c.toNat ∧ c.toNat < 0x110000) := c.valid

theorem utf8EncodeChar_lt256 (c : Char) : ∀ b ∈ utf8EncodeChar c, b < 256 := by
  have hv : c.toNat < 0x110000 := by
    rcases char_toNat_valid c with h | ⟨_, h⟩ <;> omega
  intro b hb
  unfold utf8EncodeChar at hb
  split at hb
  · simp only [List.mem_singleton] at hb
    omega
  · split at hb
    · simp only [List.mem_cons, List.not_mem_nil, or_false] at hb
      rcases hb with rfl | rfl <;> omega
    · split at hb
      · simp only [List.mem_cons, List.not_mem_nil, or_false] at hb
        rcases hb with rfl | rfl | rfl <;> omega
      · simp only [List.mem_cons, List.not_mem_nil, or_false] at hb
        rcases hb with rfl | rfl | rfl | rfl <;> omega

theorem utf8Encode_lt256 (s : List Char) : ∀ b ∈ utf8Encode s, b < 256 := by
  intro b hb
  unfold utf8Encode at hb
  rw [List.mem_flatten] at hb
  obtain ⟨l, hl, hbl⟩ := hb
  rw [List.mem_map] at hl
  obtain ⟨c, _, rfl⟩ := hl
  exact utf8EncodeChar_lt256 c b hbl

theorem utf8EncodeChar_ne_nil (c : Char) : utf8EncodeChar c ≠ [] := by
  unfold utf8EncodeChar
  split
  · simp
  · split
    · simp
    · split <;> simp

theorem utf8Step_length (bs : List Nat) (c : Char) (tl : List Nat)
    (h : utf8Step bs = some (c, tl)) : tl.length < bs.length := by
  unfold utf8Step at h
  rcases bs with _ | ⟨b1, rest⟩
  · simp at h
  · dsimp only at h
    split at h
    · simp only [Option.some.injEq, Prod.mk.injEq] at h
      obtain ⟨-, rfl⟩ := h
      simp only [List.length_cons]
      omega
    · split at h
      · rcases rest with _ | ⟨b2, rest2⟩
        · simp at h
        · dsimp only at h
          split at h
          · simp only [Option.some.injEq, Prod.mk.injEq] at h
            obtain ⟨-, rfl⟩ := h
            simp only [List.length_cons]
            omega
          · simp at h
      · split at h
        · rcases rest with _ | ⟨b2, _ | ⟨b3, rest3⟩⟩
          · simp at h
          · simp at h
          · dsimp only at h
            split at h
            · simp only [Option.some.injEq, Prod.mk.injEq] at h
              obtain ⟨-, rfl⟩ := h
              simp only [List.length_cons]
              omega
            · simp at h
        · split at h
          · rcases rest with _ | ⟨b2, _ | ⟨b3, _ | ⟨b4, rest4⟩⟩⟩
            · simp at h
            · simp at h
            · simp at h
            · dsimp only at h
              split at h
              · simp only [Option.some.injEq, Prod.mk.injEq] at h
                obtain ⟨-, rfl⟩ := h
                simp only [List.length_cons]
                omega
              · simp at h
          · simp at h

theorem utf8Step_encodeChar (c : Char) (bs : List Nat) :
    utf8Step (utf8EncodeChar c ++ bs) = some (c, bs) := by
  have hval := char_toNat_valid c
  have hofNat : Char.ofNat c.toNat = c := Char.ofNat_toNat c
  unfold utf8EncodeChar
  by_cases h1 : c.toNat < 0x80
  · rw [if_pos h1]
    show utf8Step (c.toNat :: bs) = some (c, bs)
    unfold utf8Step
    dsimp only
    rw [if_pos h1, hofNat]
  · rw [if_neg h1]
    by_cases h2 : c.toNat < 0x800
    · rw [if_pos h2]
      show utf8Step ((0xC0 + c.toNat / 0x40) :: (0x80 + c.toNat % 0x40) :: bs) = some (c, bs)
      unfold utf8Step
      dsimp only
      rw [if_neg (by omega), if_pos (show lead2 (0xC0 + c.toNat / 0x40) by unfold lead2; omega),
        if_pos (show contByte (0x80 + c.toNat % 0x40) by unfold contByte; omega)]
      have hv2 : val2 (0xC0 + c.toNat / 0x40) (0x80 + c.toNat % 0x40) = c.toNat := by
        unfold val2
        omega
      rw [hv2, hofNat]
    · rw [if_neg h2]
      by_cases h3 : c.toNat < 0x10000
      · rw [if_pos h3]
        show utf8Step ((0xE0 + c.toNat / 0x1000) ::
          (0x80 + c.toNat / 0x40 % 0x40) :: (0x80 + c.toNat % 0x40) :: bs) = some (c, bs)
        unfold utf8Step
        dsimp only
        have hsnd : snd3ok (0xE0 + c.toNat / 0x1000) (0x80 + c.toNat / 0x40 % 0x40) := by
          unfold snd3ok
          split
          · omega
          · split
            · rcases hval with hv | ⟨hv, -⟩ <;> omega
            · unfold contByte
              omega
        rw [if_neg (by omega), if_neg (by unfold lead2; omega),
          if_pos (show lead3 (0xE0 + c.toNat / 0x1000) by unfold lead3; omega),
          if_pos ⟨hsnd, show contByte (0x80 + c.toNat % 0x40) by unfold contByte; omega⟩]
        have hv3 : val3 (0xE0 + c.toNat / 0x1000) (0x80 + c.toNat / 0x40 % 0x40)
            (0x80 + c.toNat % 0x40) = c.toNat := by
          unfold val3
          omega
        rw [hv3, hofNat]
      · rw [if_neg h3]
        have h4 : c.toNat < 0x110000 := by rcases hval with hv | ⟨-, hv⟩ <;> omega
        show utf8Step ((0xF0 + c.toNat / 0x40000) :: (0x80 + c.toNat / 0x1000 % 0x40) ::
          (0x80 + c.toNat / 0x40 % 0x40) :: (0x80 + c.toNat % 0x40) :: bs) = some (c, bs)
        unfold utf8Step
        dsimp only
        have hsnd : snd4ok (0xF0 + c.toNat / 0x40000) (0x80 + c.toNat / 0x1000 % 0x40) := by
          unfold snd4ok
          split
          · omega
          · split
            · omega
            · unfold contByte
              omega
        rw [if_neg (by omega), if_neg (by unfold lead2; omega),
          if_neg (by unfold lead3; omega),
          if_pos (show lead4 (0xF0 + c.toNat / 0x40000) by unfold lead4; omega),
          if_pos ⟨hsnd, show contByte (0x80 + c.toNat / 0x40 % 0x40) by unfold contByte; omega,
            show contByte (0x80 + c.toNat % 0x40) by unfold contByte; omega⟩]
        have hv4 : val4 (0xF0 + c.toNat / 0x40000) (0x80 + c.toNat / 0x1000 % 0x40)
            (0x80 + c.toNat / 0x40 % 0x40) (0x80 + c.toNat % 0x40) = c.toNat := by
          unfold val4
          omega
        rw [hv4, hofNat]

theorem utf8DecodeGo_fuel :
    ∀ (fuel : Nat) (bs : List Nat), bs.length ≤ fuel →
      utf8DecodeGo fuel bs = utf8DecodeGo bs.length bs
  | fuel, [], _ => by simp [utf8DecodeGo]
  | 0, b1 :: rest, h => by simp at h
  | fuel + 1, b1 :: rest, h => by
    rw [show (b1 :: rest).length = rest.length + 1 from rfl]
    rw [utf8DecodeGo, utf8DecodeGo]
    cases hs : utf8Step (b1 :: rest) with
    | none => rfl
    | some cr =>
      obtain ⟨c, rest2⟩ := cr
      have hlt : rest2.length < (b1 :: rest).length := utf8Step_length _ _ _ hs
      simp only [List.length_cons] at hlt h
      dsimp only
      rw [utf8DecodeGo_fuel fuel rest2 (by omega),
        utf8DecodeGo_fuel rest.length rest2 (by omega)]

theorem utf8Decode_encodeChar (c : Char) (bs : List Nat) :
    utf8Decode (utf8EncodeChar c ++ bs) = (utf8Decode bs).map (c :: ·) := by
  have hstep := utf8Step_encodeChar c bs
  unfold utf8Decode
  cases henc : utf8EncodeChar c with
  | nil => exact absurd henc (utf8EncodeChar_ne_nil c)
  | cons e es =>
    rw [henc] at hstep
    simp only [List.cons_append] at hstep ⊢
    rw [show (e :: (es ++ bs)).length = (es ++ bs).length + 1 from rfl]
    rw [utf8DecodeGo]
    rw [hstep]
    dsimp only
    rw [utf8DecodeGo_fuel ((es ++ bs).length) bs (by rw [List.length_append]; omega)]

theorem utf8Decode_utf8Encode (s : List Char) : utf8Decode (utf8Encode s) = some s := by
  induction s with
  | nil => simp [utf8Encode, utf8Decode, utf8DecodeGo]
  | cons c cs ih =>
    show utf8Decode (utf8EncodeChar c ++ utf8Encode cs) = some (c :: cs)
    rw [utf8Decode_encodeChar, ih]
    rfl

/-! ### Supporting lemmas for the session, sort and browse theorems -/

theorem fixPadding_of_mod4 (l : List Char) (h : l.length % 4 = 0) : fixPadding l = l := by
  simp [fixPadding, h]

theorem append_ne_empty_left (a b : String) (ha : a.length ≠ 0) : a ++ b ≠ "" := by
  intro h
  have hl := congrArg String.length h
  rw [String.length_append] at hl
  have hz : ("" : String).length = 0 := rfl
  omega

theorem assocGet_map_update {α : Type} (l : List (Nat × α)) (uid : Nat) (v : α)
    (h : (l.find? (fun p => p.1 == uid)).isSome) :
    assocGet (l.map (fun p => if p.1 == uid then (uid, v) else p)) uid = some v := by
  induction l with
  | nil => simp at h
  | cons p l ih =>
    by_cases hp : (p.1 == uid) = true
    · simp only [List.map_cons, if_pos hp]
      unfold assocGet
      rw [List.find?_cons_of_pos _ (by simp)]
      rfl
    · rw [List.find?_cons_of_neg _ (by simp [hp])] at h
      simp only [List.map_cons, if_neg hp]
      unfold assocGet
      rw [List.find?_cons_of_neg _ (by simp [hp])]
      exact ih h

theorem assocGet_append_missing {α : Type} (l : List (Nat × α)) (uid : Nat) (v : α)
    (h : l.find? (fun p => p.1 == uid) = none) :
    assocGet (l ++ [(uid, v)]) uid = some v := by
  induction l with
  | nil =>
    unfold assocGet
    rw [List.nil_append, List.find?_cons_of_pos _ (by simp)]
    rfl
  | cons p l ih =>
    rw [List.find?_cons] at h
    rcases hp : (p.1 == uid) with _ | _
    · rw [hp] at h
      unfold assocGet
      rw [List.cons_append, List.find?_cons_of_neg _ (by simp [hp])]
      exact ih h
    · rw [hp] at h
      simp at h

theorem assocGet_assocSet {α : Type} (l : List (Nat × α)) (uid : Nat) (v : α) :
    assocGet (assocSet l uid v) uid = some v := by
  unfold assocSet
  by_cases h : (l.find? (fun p => p.1 == uid)).isSome
  · rw [if_pos h]
    exact assocGet_map_update l uid v h
  · rw [if_neg h]
    exact assocGet_append_missing l uid v (Option.not_isSome_iff_eq_none.mp h)

theorem assocGet_assocRemove {α : Type} (l : List (Nat × α)) (uid : Nat) :
    assocGet (assocRemove l uid) uid = none := by
  induction l with
  | nil => rfl
  | cons p l ih =>
    unfold assocRemove at ih ⊢
    rcases hp : (p.1 == uid) with _ | _
    · rw [List.filter_cons]
      simp only [hp, Bool.not_false, if_pos]
      unfold assocGet at ih ⊢
      rw [List.find?_cons_of_neg _ (by simp [hp])]
      exact ih
    · rw [List.filter_cons]
      simp only [hp, Bool.not_true, if_neg]
      exact ih

theorem cmpLowerLE_total : ∀ l1 l2 : List Char, (cmpLowerLE l1 l2 || cmpLowerLE l2 l1) = true
  | [], l2 => by simp [cmpLowerLE]
  | c :: cs, [] => by simp [cmpLowerLE]
  | c :: cs, d :: ds => by
    by_cases h : c = d
    · subst h
      simp only [cmpLowerLE, if_pos rfl]
      exact cmpLowerLE_total cs ds
    · simp only [cmpLowerLE, if_neg h, if_neg (Ne.symm h), Bool.or_eq_true,
        decide_eq_true_eq]
      rcases lt_or_gt_of_ne h with hlt | hgt
      · exact Or.inl hlt
      · exact Or.inr hgt

theorem cmpLowerLE_trans : ∀ l1 l2 l3 : List Char, cmpLowerLE l1 l2 = true →
    cmpLowerLE l2 l3 = true → cmpLowerLE l1 l3 = true
  | [], _, _, _, _ => rfl
  | c :: cs, [], _, h1, _ => by simp [cmpLowerLE] at h1
  | c :: cs, d :: ds, [], _, h2 => by simp [cmpLowerLE] at h2
  | c :: cs, d :: ds, e :: es, h1, h2 => by
    by_cases hcd : c = d
    · subst hcd
      rw [cmpLowerLE, if_pos rfl] at h1
      by_cases hde : c = e
      · subst hde
        rw [cmpLowerLE, if_pos rfl] at h2 ⊢
        exact cmpLowerLE_trans cs ds es h1 h2
      · rw [cmpLowerLE, if_neg hde] at h2 ⊢
        exact h2
    · rw [cmpLowerLE, if_neg hcd, decide_eq_true_eq] at h1
      by_cases hde : d = e
      · subst hde
        rw [cmpLowerLE, if_neg hcd, decide_eq_true_eq]
        exact h1
      · rw [cmpLowerLE, if_neg hde, decide_eq_true_eq] at h2
        have hce : c < e := lt_trans h1 h2
        rw [cmpLowerLE, if_neg (ne_of_lt hce), decide_eq_true_eq]
        exact hce

theorem keyLE_iff (k1 k2 : Bool × List Char) :
    keyLE k1 k2 = true ↔
      ((k1.1 = false ∧ k2.1 = true) ∨ (k1.1 = k2.1 ∧ cmpLowerLE k1.2 k2.2 = true)) := by
  rcases k1 with ⟨b1, s1⟩
  rcases k2 with ⟨b2, s2⟩
  unfold keyLE
  cases b1 <;> cases b2 <;> simp

theorem keyLE_trans (k1 k2 k3 : Bool × List Char) (h1 : keyLE k1 k2 = true)
    (h2 : keyLE k2 k3 = true) : keyLE k1 k3 = true := by
  apply (keyLE_iff _ _).mpr
  rcases (keyLE_iff _ _).mp h1 with ⟨ha, hb⟩ | ⟨heq, hle⟩ <;>
    rcases (keyLE_iff _ _).mp h2 with ⟨hc, hd⟩ | ⟨heq2, hle2⟩
  · rw [hb] at hc
    exact absurd hc (by simp)
  · exact Or.inl ⟨ha, heq2 ▸ hb⟩
  · exact Or.inl ⟨heq.trans hc, hd⟩
  · exact Or.inr ⟨heq.trans heq2, cmpLowerLE_trans _ _ _ hle hle2⟩

theorem keyLE_total (k1 k2 : Bool × List Char) : (keyLE k1 k2 || keyLE k2 k1) = true := by
  rw [Bool.or_eq_true]
  by_cases hb : k1.1 = k2.1
  · rcases Bool.or_eq_true _ _ |>.mp (cmpLowerLE_total k1.2 k2.2) with h | h
    · exact Or.inl ((keyLE_iff _ _).mpr (Or.inr ⟨hb, h⟩))
    · exact Or.inr ((keyLE_iff _ _).mpr (Or.inr ⟨hb.symm, h⟩))
  · cases h1 : k1.1 <;> cases h2 : k2.1
    · exact absurd (h1.trans h2.symm) hb
    · exact Or.inl ((keyLE_iff _ _).mpr (Or.inl ⟨h1, h2⟩))
    · exact Or.inr ((keyLE_iff _ _).mpr (Or.inl ⟨h2, h1⟩))
    · exact absurd (h1.trans h2.symm) hb

/-! ### Claim theorems -/

/-- C1: for every path `p` whose UTF-8 base64 encoding is at most 60
characters, `decode_path (encode_path p) = some p` — the codec is a
pure, deterministic, reversible transform inside the token budget. -/
theorem decode_path_encode_path (p : List Char)
    (h : (b64encodeBytes (utf8Encode p)).length ≤ 60) :
    decode_path (encode_path p) = some p := by
  unfold encode_path decode_path
  rw [List.take_of_length_le h,
    fixPadding_of_mod4 _ (b64encodeBytes_length_mod4 _),
    b64decode_b64encode _ (utf8Encode_lt256 p)]
  exact utf8Decode_utf8Encode p

/-- Witness for C1 at the concrete path `C:\Users`. -/
theorem decode_path_encode_path_check :
    (b64encodeBytes (utf8Encode "C:\\Users".toList)).length ≤ 60 ∧
    decode_path (encode_path "C:\\Users".toList) = some "C:\\Users".toList :=
  ⟨by decide, decode_path_encode_path "C:\\Users".toList (by decide)⟩

/-- C2 (code bug): the claim — and the spec's error-handling section —
say a corrupted token produces a decode error treated as an unknown
target with a not-found-style response, never an unhandled fault.  In
the code `decode_path` raises (`binascii.Error` or
`UnicodeDecodeError`) and the `dirb_` branch of `button_handler` calls
it with no `try`/`except`, so the exception escapes the dispatcher.
Failing input: callback data `dirb_gA`, whose token decodes to the
byte `0x80`, invalid UTF-8. -/
theorem decode_error_escapes_button_handler :
    decode_path "gA".toList = none ∧
    button_handler_dirb "dirb_gA".toList =
      Except.error "decode_path raised: binascii.Error or UnicodeDecodeError" :=
  ⟨rfl, rfl⟩

/-- C9: `encode_path` is not injective.  The 46 character paths
`"a" * 46` and `"a" * 45 ++ "b"` differ, but their base64 encodings
agree on the first 60 characters, so the truncated tokens coincide —
and the shared token decodes back to neither original path. -/
theorem encode_path_not_injective :
    List.replicate 46 'a' ≠ List.replicate 45 'a' ++ ['b'] ∧
    encode_path (List.replicate 46 'a') = encode_path (List.replicate 45 'a' ++ ['b']) ∧
    decode_path (encode_path (List.replicate 46 'a')) ≠ some (List.replicate 46 'a') ∧
    decode_path (encode_path (List.replicate 45 'a' ++ ['b']))
      ≠ some (List.replicate 45 'a' ++ ['b']) :=
  ⟨by decide, by decide, by decide, by decide⟩

/-- C3 (counterexample): a session pending `change_priority` that
receives the malformed argument `"999"` (one part instead of
"PID priority") keeps its pending state, and a session pending
`watch_directory` keeps its pending state on any text (the bare name
`start_directory_watch` raises `NameError` before the `del`) — the
claim says every named pending-action state is cleared unconditionally
on any free text. -/
theorem change_priority_malformed_keeps_state :
    handle_message_state (some { action := some .change_priority }) "999"
        = { session := some { action := some .change_priority }, exn := none } ∧
    (handle_message_state (some { action := some .change_priority }) "999").session ≠ none ∧
    handle_message_state (some { action := some .watch_directory }) "/tmp"
        = { session := some { action := some .watch_directory }, exn := some "NameError" } :=
  ⟨rfl, by decide, rfl⟩

/-- C3 (amended): a free-text message in any named pending-action state
returns the session to Idle (the entry is deleted), whatever the
collaborator result — except `change_priority` when the text does not
split into exactly two whitespace-separated parts, whose early return
keeps the pending state, and `watch_directory`, where the never
imported name `start_directory_watch` raises `NameError` before the
`del`, so the pending state is kept and the exception escapes. -/
theorem handle_message_state_clears (s : Session) (a : PendingAction) (text : String)
    (ha : s.action = some a) :
    handle_message_state (some s) text =
      if a = .change_priority ∧ (pySplit text).length ≠ 2 then
        { session := some s, exn := none }
      else if a = .watch_directory then { session := some s, exn := some "NameError" }
      else { session := none, exn := none } := by
  rcases s with ⟨sa, sf, st⟩
  simp only at ha
  cases ha
  cases a <;> simp [handle_message_state]

/-- Witness for C3 (amended) at a `rename_file` session. -/
theorem handle_message_state_clears_check :
    handle_message_state
      (some { action := some PendingAction.rename_file, file_path := some "/tmp/a.txt" })
      "b.txt" = { session := none, exn := none } := by
  rw [handle_message_state_clears _ PendingAction.rename_file _ rfl]
  decide

/-- C4 (counterexample): user 1 starts a shutdown timer (registered into
the session), then cancels; the session entry is gone (back to Idle)
but the timer task was never `.cancel()`-ed, so it still fires — the
claim says a cancelled state's timer does not fire afterwards. -/
theorem cancel_action_timer_still_fires :
    (start_timer wSession 1 "shutdown").exn = none ∧
    lookupState (cancel_action (start_timer wSession 1 "shutdown").state 1) 1 = none ∧
    timer_fires (cancel_action (start_timer wSession 1 "shutdown").state 1) 0 = true :=
  ⟨rfl, rfl, rfl⟩

/-- C4 (amended): both cancel paths delete the session entry — the
state machine returns to Idle and scratch data (including the timer
handle) is discarded — but neither cancels any timer task: the task
list is untouched, so a live timer still fires. -/
theorem cancel_discards_session_not_tasks (w : BotState) (uid : Nat) :
    lookupState (cancel_action w uid) uid = none ∧
    (cancel_action w uid).tasks = w.tasks ∧
    lookupState (cancel_command w uid).state uid = none ∧
    (cancel_command w uid).state.tasks = w.tasks :=
  ⟨assocGet_assocRemove _ _, rfl, assocGet_assocRemove _ _, rfl⟩

/-- C5 (counterexample): for a user with no `user_states` entry,
`start_timer` creates the task and only then raises `KeyError` at the
registration line, so nothing records the task; a second start cannot
cancel it and two live timers coexist — the claim says any sequence of
starts leaves at most one live timer per user. -/
theorem start_timer_without_session_accumulates :
    (start_timer wEmpty 1 "sleep").exn = some "KeyError" ∧
    (start_timer (start_timer wEmpty 1 "sleep").state 1 "sleep").exn = some "KeyError" ∧
    liveTimerCount (start_timer (start_timer wEmpty 1 "sleep").state 1 "sleep").state 1 = 2 :=
  ⟨rfl, rfl, rfl⟩

/-- C5 (amended): when the user's `user_states` entry exists, the old
registered timer is cancelled before the new one is registered
(last-writer-wins): from a state with a session entry and no tasks,
two successive starts raise nothing and leave exactly one live timer.
Without a session entry the registration raises `KeyError` after task
creation and live timers accumulate instead. -/
theorem start_timer_two_in_succession_one_live (w : BotState) (uid : Nat)
    (a1 a2 : String) (hsess : (lookupState w uid).isSome = true)
    (htasks : w.tasks = []) :
    (start_timer w uid a1).exn = none ∧
    (start_timer (start_timer w uid a1).state uid a2).exn = none ∧
    liveTimerCount (start_timer (start_timer w uid a1).state uid a2).state uid = 1 := by
  obtain ⟨s, hs⟩ := Option.isSome_iff_exists.mp hsess
  have hs' : assocGet w.user_states uid = some s := hs
  have h1 : start_timer w uid a1 =
      { state := setState { w with tasks := [⟨uid, a1, false⟩] } uid
          { s with timer_task := some 0 }, exn := none } := by
    rcases htt : s.timer_task with _ | tid
    · simp [start_timer, lookupState, hs', htasks, htt, cancelTask]
    · simp [start_timer, lookupState, hs', htasks, htt, cancelTask]
  have hlook1 : lookupState (setState { w with tasks := [⟨uid, a1, false⟩] } uid
      { s with timer_task := some 0 }) uid = some { s with timer_task := some 0 } :=
    assocGet_assocSet _ _ _
  have h2 : start_timer (setState { w with tasks := [⟨uid, a1, false⟩] } uid
        { s with timer_task := some 0 }) uid a2 =
      { state := setState
          { (setState { w with tasks := [⟨uid, a1, false⟩] } uid
              { s with timer_task := some 0 }) with
            tasks := [⟨uid, a1, true⟩, ⟨uid, a2, false⟩] } uid
          { s with timer_task := some 1 }, exn := none } := by
    simp [start_timer, lookupState, setState, assocGet_assocSet, cancelTask]
  rw [h1]
  dsimp only
  rw [h2]
  refine ⟨rfl, rfl, ?_⟩
  simp [liveTimerCount, setState]

/-- Witness for C5 (amended) at the concrete state `wSession`. -/
theorem start_timer_two_in_succession_one_live_check :
    (start_timer wSession 1 "sleep").exn = none ∧
    (start_timer (start_timer wSession 1 "sleep").state 1 "shutdown").exn = none ∧
    liveTimerCount (start_timer (start_timer wSession 1 "sleep").state 1 "shutdown").state 1
      = 1 :=
  start_timer_two_in_succession_one_live wSession 1 "sleep" "shutdown" (by decide) rfl

/-- C6 (counterexample): `copy_file` checks source and destination
parent but never destination collision: with `/tmp/b.txt` (7 bytes)
already present, copying `/tmp/a.txt` (5 bytes) onto it reports
success and silently replaces the destination — the claim says every
file-mutating operation validates destination non-collision before
mutating. -/
theorem copy_file_overwrites_existing_destination :
    findEntry fsAB ["tmp", "b.txt"] =
      some { path := ["tmp", "b.txt"], isDir := false, size := 7, mtime := 2,
             accessible := true } ∧
    (copy_file fsAB ["tmp", "a.txt"] ["tmp", "b.txt"]).2.1 = true ∧
    (copy_file fsAB ["tmp", "a.txt"] ["tmp", "b.txt"]).2.2 = "✅ Copied to: tmp/b.txt" ∧
    findEntry (copy_file fsAB ["tmp", "a.txt"] ["tmp", "b.txt"]).1 ["tmp", "b.txt"] =
      some { path := ["tmp", "b.txt"], isDir := false, size := 5, mtime := 1,
             accessible := true } :=
  ⟨rfl, rfl, rfl, rfl⟩

/-- C6 (amended): `delete_file` and `rename_file` validate before
mutating — in particular a rename whose destination already exists
returns the collision failure message and returns the filesystem
unchanged, leaving the original file in place — while `move_file` and
`copy_file` validate only source and destination-parent existence (an
existing file destination gets overwritten), and `create_directory`
creates missing parents and accepts an existing directory. -/
theorem rename_file_existing_destination (fs : FileSystem) (file_path : List String)
    (new_name : String) (hsrc : (findEntry fs file_path).isSome = true)
    (hdst : (findEntry fs (file_path.dropLast ++ [new_name])).isSome = true) :
    rename_file fs file_path new_name =
      (fs, false,
        "Destination already exists: " ++ pathStr (file_path.dropLast ++ [new_name])) := by
  obtain ⟨e, he⟩ := Option.isSome_iff_exists.mp hsrc
  obtain ⟨e2, he2⟩ := Option.isSome_iff_exists.mp hdst
  simp [rename_file, he, he2]

/-- Witness for C6 (amended): renaming `/tmp/a.txt` to the existing
name `b.txt` fails with the collision message and changes nothing. -/
theorem rename_file_existing_destination_check :
    rename_file fsAB ["tmp", "a.txt"] "b.txt" =
      (fsAB, false, "Destination already exists: tmp/b.txt") := by
  rw [rename_file_existing_destination fsAB ["tmp", "a.txt"] "b.txt" rfl rfl]
  rfl

/-- C7: `get_directory_contents` on a missing path returns the
NotFound-style message together with an empty listing, and on an
existing non-directory path the NotADirectory-style message with an
empty listing; the model is a total function, so neither case raises. -/
theorem get_directory_contents_missing_or_file (fs : FileSystem) (path : List String) :
    (findEntry fs path = none →
      get_directory_contents fs path = ([], "Directory does not exist: " ++ pathStr path)) ∧
    (∀ e, findEntry fs path = some e → e.isDir = false →
      get_directory_contents fs path = ([], "Not a directory: " ++ pathStr path)) := by
  constructor
  · intro h
    simp [get_directory_contents, h]
  · intro e he hd
    simp [get_directory_contents, he, hd]

/-- Witness for C7 at the sample filesystem. -/
theorem get_directory_contents_missing_or_file_check :
    get_directory_contents fsDemo ["nope"] = ([], "Directory does not exist: nope") ∧
    get_directory_contents fsDemo ["tmp", "a.txt"] = ([], "Not a directory: tmp/a.txt") :=
  ⟨(get_directory_contents_missing_or_file fsDemo ["nope"]).1 rfl,
   (get_directory_contents_missing_or_file fsDemo ["tmp", "a.txt"]).2
     { path := ["tmp", "a.txt"], isDir := false, size := 5, mtime := 1, accessible := true }
     rfl rfl⟩

theorem mem_insertLE {α : Type} (le : α → α → Bool) (x : α) :
    ∀ (l : List α) (b : α), b ∈ insertLE le x l ↔ b = x ∨ b ∈ l
  | [], b => by simp [insertLE]
  | y :: ys, b => by
    by_cases hle : le y x = true
    · rw [insertLE, if_pos hle]
      simp only [List.mem_cons]
      rw [mem_insertLE le x ys b]
      tauto
    · rw [insertLE, if_neg hle]
      simp only [List.mem_cons]

theorem pairwise_insertLE {α : Type} (le : α → α → Bool)
    (htrans : ∀ a b c, le a b = true → le b c = true → le a c = true)
    (htot : ∀ a b, (le a b || le b a) = true) (x : α) :
    ∀ l : List α, l.Pairwise (fun a b => le a b = true) →
      (insertLE le x l).Pairwise (fun a b => le a b = true)
  | [], _ => by simp [insertLE]
  | y :: ys, h => by
    rw [List.pairwise_cons] at h
    obtain ⟨hy, hys⟩ := h
    by_cases hle : le y x = true
    · rw [insertLE, if_pos hle, List.pairwise_cons]
      constructor
      · intro b hb
        rcases (mem_insertLE le x ys b).mp hb with rfl | hbmem
        · exact hle
        · exact hy b hbmem
      · exact pairwise_insertLE le htrans htot x ys hys
    · rw [insertLE, if_neg hle, List.pairwise_cons]
      constructor
      · intro b hb
        have hxy : le x y = true := by
          rcases Bool.or_eq_true _ _ |>.mp (htot y x) with hcase | hcase
          · exact absurd hcase hle
          · exact hcase
        rcases List.mem_cons.mp hb with rfl | hbmem
        · exact hxy
        · exact htrans x y b hxy (hy b hbmem)
      · exact List.pairwise_cons.mpr ⟨hy, hys⟩

theorem pairwise_stableSort {α : Type} (le : α → α → Bool)
    (htrans : ∀ a b c, le a b = true → le b c = true → le a c = true)
    (htot : ∀ a b, (le a b || le b a) = true) (l : List α) :
    (stableSort le l).Pairwise (fun a b => le a b = true) := by
  suffices hgen : ∀ (l2 acc : List α), acc.Pairwise (fun a b => le a b = true) →
      (l2.foldl (fun acc x => insertLE le x acc) acc).Pairwise (fun a b => le a b = true) from
    hgen l [] (by simp)
  intro l2
  induction l2 with
  | nil =>
    intro acc h
    simpa using h
  | cons x xs ih =>
    intro acc h
    simp only [List.foldl_cons]
    exact ih _ (pairwise_insertLE le htrans htot x acc h)

theorem entryLE_trans (a b c : FSEntry) (h1 : entryLE a b = true)
    (h2 : entryLE b c = true) : entryLE a c = true := keyLE_trans _ _ _ h1 h2

theorem entryLE_total (a b : FSEntry) : (entryLE a b || entryLE b a) = true := keyLE_total _ _

/-- C8: every successful listing of `get_directory_contents` is
pairwise ordered: a directory never follows a non-directory, and any
two entries of the same kind appear in case-insensitive lexicographic
name order. -/
theorem get_directory_contents_output_sorted (fs : FileSystem) (path : List String)
    (items : List DirItem) (h : get_directory_contents fs path = (items, "")) :
    items.Pairwise (fun a b =>
      (a.is_dir = true ∧ b.is_dir = false) ∨
      (a.is_dir = b.is_dir ∧ cmpLowerLE (lowerName a.name) (lowerName b.name) = true)) := by
  unfold get_directory_contents at h
  cases hfe : findEntry fs path with
  | none =>
    rw [hfe] at h
    dsimp only at h
    exact absurd (congrArg Prod.snd h) (append_ne_empty_left _ _ (by decide))
  | some e =>
    rw [hfe] at h
    dsimp only at h
    cases hd : e.isDir with
    | false =>
      rw [hd] at h
      rw [if_pos (show (!false) = true from rfl)] at h
      exact absurd (congrArg Prod.snd h) (append_ne_empty_left _ _ (by decide))
    | true =>
      rw [hd] at h
      rw [if_neg (show ¬ (!true) = true from by simp)] at h
      cases ha : e.accessible with
      | false =>
        rw [ha] at h
        rw [if_pos (show (!false) = true from rfl)] at h
        exact absurd (congrArg Prod.snd h) (append_ne_empty_left _ _ (by decide))
      | true =>
        rw [ha] at h
        rw [if_neg (show ¬ (!true) = true from by simp)] at h
        injection h with h1 h2
        subst h1
        apply List.Pairwise.map _ ?_
          ((pairwise_stableSort entryLE entryLE_trans entryLE_total
              (childrenOf fs path)).filter (·.accessible))
        intro a b hab
        dsimp only
        rcases (keyLE_iff _ _).mp hab with ⟨hk1, hk2⟩ | ⟨hk1, hk2⟩
        · left
          simp only [sortKey] at hk1 hk2
          constructor
          · simpa using hk1
          · simpa using hk2
        · right
          simp only [sortKey] at hk1 hk2
          exact ⟨Bool.not_inj hk1, hk2⟩

/-- Witness for C8 at the sample filesystem: the listing of `/tmp`. -/
theorem get_directory_contents_output_sorted_check :
    List.Pairwise (fun a b =>
      (a.is_dir = true ∧ b.is_dir = false) ∨
      (a.is_dir = b.is_dir ∧ cmpLowerLE (lowerName a.name) (lowerName b.name) = true))
      ([ { name := "adir", path := ["tmp", "adir"], is_dir := true, size := 0, modified := 4 },
         { name := "Zdir", path := ["tmp", "Zdir"], is_dir := true, size := 0, modified := 3 },
         { name := "a.txt", path := ["tmp", "a.txt"], is_dir := false, size := 5, modified := 1 },
         { name := "b.txt", path := ["tmp", "b.txt"], is_dir := false, size := 7, modified := 2 } ]
        : List DirItem) :=
  get_directory_contents_output_sorted fsDemo ["tmp"] _ rfl

/-- C10: `browse_directory` persists the requested path as the user's
current working directory (later used to resolve document uploads)
before any validation, so even a non-existent path is stored while the
navigation itself reports an error. -/
theorem browse_directory_stores_path_before_validation (fs : FileSystem)
    (c : ConfigStore) (uid : Nat) (path : List String) (hne : path ≠ [])
    (hmiss : findEntry fs path = none) :
    get_user_directory (browse_directory fs c uid path).config uid = path ∧
    (browse_directory fs c uid path).response =
      .errorMsg ("❌ " ++ ("Directory does not exist: " ++ pathStr path)) := by
  have hnav : navigate_to_path fs path
      = ([], "Directory does not exist: " ++ pathStr path) := by
    unfold navigate_to_path
    rw [if_neg hne]
    simp [get_directory_contents, hmiss]
  have hmsg : ("Directory does not exist: " ++ pathStr path) ≠ "" :=
    append_ne_empty_left _ _ (by decide)
  simp only [browse_directory, hnav]
  rw [if_pos hmsg]
  refine ⟨?_, rfl⟩
  unfold get_user_directory set_user_directory
  rw [assocGet_assocSet]
  rfl

/-- Witness for C10: browsing to the missing path `nope` stores it as
user 7's working directory while the response is the error message. -/
theorem browse_directory_stores_path_before_validation_check :
    get_user_directory
        (browse_directory fsDemo { current_directories := [] } 7 ["nope"]).config 7
      = ["nope"] ∧
    (browse_directory fsDemo { current_directories := [] } 7 ["nope"]).response =
      .errorMsg "❌ Directory does not exist: nope" :=
  browse_directory_stores_path_before_validation fsDemo { current_directories := [] } 7
    ["nope"] (by decide) rfl

end PCControl
